import Mathlib

/-!
Shallow embedding of the Rust-facing accessor layer of an archetype ECS
storage engine (`src/flecs_ecs_sys/src/flecs_rust.c`) and of the wasm
sysroot byte-wise `memcpy` (`src/flecs_ecs_sys/wasm-sysroot/src/string/memcpy.c`).

The accessor functions in `flecs_rust.c` are translated directly.  The engine
internals they call (`flecs.c` / `flecs.h` are pulled in by
`#include "flecs.c"` and are not part of the sources) are modelled from the
specification; each such definition carries a doc comment starting with
`Modelled from the spec:`.

Pointers are represented with explicit provenance (which storage the address
was computed from: a table column, a sparse store, or an inherited base
component found by IsA traversal), so that statements about *which* pointer an
accessor returns are expressible.  Diagnostics surfaced by `ecs_check` are made
explicit in the return type: every accessor returns its C result paired with
the diagnostic (if any) it surfaced on the way to the `error:` label.
-/

/-- Modelled from the spec: the low-id threshold below which component ids take
the direct column-map fast path (`FLECS_HI_COMPONENT_ID` from `flecs.h`, not in
`src/`). -/
def FLECS_HI_COMPONENT_ID : Nat := 256

/-- Modelled from the spec: the builtin wildcard entity id (`EcsWildcard` from
`flecs.h`, not in `src/`); its concrete value is the low-id threshold plus 10. -/
def EcsWildcard : Nat := 266

/-- Modelled from the spec: the builtin trait entity marking a relation as a
pure tag (`EcsPairIsTag` from `flecs.h`, not in `src/`); only its identity
matters here. -/
def EcsPairIsTag : Nat := 270

/-- Modelled from the spec: cycle-detection bound for IsA base-chain traversal
(`ECS_MAX_RECURSION` from `flecs.h`, not in `src/`). -/
def ECS_MAX_RECURSION : Nat := 512

/-- Modelled from the spec: flag nibble of a 64-bit id (the bits selected by
`ECS_ID_FLAGS_MASK`, the top four bits). -/
def ecs_id_flags (id : Nat) : Nat := (id % 2 ^ 64) / 2 ^ 60

/-- Modelled from the spec: an id is a relationship pair exactly when its flag
bits equal the pair flag (bit 63), i.e. the flag nibble is 8 (`ECS_IS_PAIR`
from `flecs.h`, not in `src/`). -/
def ECS_IS_PAIR (id : Nat) : Bool := ecs_id_flags id == 8

/-- Modelled from the spec: first (relation) element of a pair id, bits 32–59
(`ECS_PAIR_FIRST` from `flecs.h`, not in `src/`). -/
def ECS_PAIR_FIRST (id : Nat) : Nat := (id % 2 ^ 60) / 2 ^ 32

/-- Modelled from the spec: second (target) element of a pair id, bits 0–31
(`ECS_PAIR_SECOND` from `flecs.h`, not in `src/`). -/
def ECS_PAIR_SECOND (id : Nat) : Nat := id % 2 ^ 32

/-- Modelled from the spec: encode a relationship pair id with the pair flag in
bit 63, the relation in bits 32–59 and the target in bits 0–31 (`ecs_pair`
from `flecs.h`, not in `src/`). -/
def ecs_pair (first second : Nat) : Nat :=
  2 ^ 63 + (first % 2 ^ 28) * 2 ^ 32 + second % 2 ^ 32

/-- Modelled from the spec: strip the row flags stored in the high bits of an
entity record's row field (`ECS_RECORD_TO_ROW` from `flecs.h`, not in
`src/`). -/
def ECS_RECORD_TO_ROW (row : Nat) : Nat := row % 2 ^ 28

/-- Diagnostic codes surfaced by the `ecs_check` precondition checks before the
function jumps to its `error:` label. -/
inductive ErrCode where
  | invalidParameter
  | notAComponent
deriving DecidableEq

/-- Component pointer with explicit provenance: which storage the address was
computed from. -/
inductive Ptr where
  /-- Address computed as column base + row stride inside the entity's own
  table. -/
  | column (tableId col row : Nat)
  /-- Address obtained from the sparse store of a component record, keyed by
  entity id. -/
  | sparse (crId entity : Nat)
  /-- Address of an inherited base component found by IsA base-chain
  traversal: the base entity, its table, and the column/row there. -/
  | base (baseEntity tableId col row : Nat)
deriving DecidableEq

/-- Returns true exactly for pointers obtained through IsA base-chain
traversal. -/
def Ptr.isBase : Ptr → Bool
  | .base .. => true
  | _ => false

/-- Per-component type metadata (`ecs_type_info_t`): the component entity it
describes and the element size. -/
structure TypeInfo where
  component : Nat
  size : Nat
deriving DecidableEq

/-- Per (component record, table) cache entry (`ecs_table_record_t`): the
column index (`-1` when the id is present but carries no data) and the number
of instances of the id (or ids matching the wildcard) the table holds. -/
structure TableRecord where
  column : Int
  count : Nat
deriving DecidableEq

/-- Archetype table: unique id, the `EcsTableHasIsA` flag, the direct low-id
column map (`component_map`, storing column+1, 0 meaning absent), the entity
at each row, the IsA base entities declared in its type, and the list of ids
it stores. -/
structure Table where
  id : Nat
  hasIsA : Bool
  component_map : Nat → Nat
  entities : Nat → Nat
  isaBases : List Nat
  typeIds : List Nat

/-- Component record (`ecs_component_record_t`): the id it describes, its
flags, optional type info, the table cache (keyed by table id), and the sparse
store's per-entity presence. -/
structure ComponentRecord where
  id : Nat
  dontFragment : Bool
  isSparse : Bool
  type_info : Option TypeInfo
  cache : Nat → Option TableRecord
  sparse : Nat → Bool

/-- Entity record (`ecs_record_t`): the entity's current table and row. -/
structure Record where
  table : Table
  row : Nat

/-- World state, restricted to what the accessor layer reads: entity liveness,
the per-low-id `non_trivial` flags, the component-record index, the entity
record index, the global per-component type-info table, pair-element
resolution and trait queries. -/
structure World where
  alive : Nat → Bool
  non_trivial : Nat → Bool
  components : Nat → Option ComponentRecord
  records : Nat → Option Record
  type_infos : Nat → Option TypeInfo
  get_alive : Nat → Nat
  has_id : Nat → Nat → Bool

/-- Modelled from the spec: read-only component-record lookup
(`flecs_components_get` from `flecs.c`, not in `src/`) — returns the record
for an id, or none, without allocating. -/
def flecs_components_get (world : World) (id : Nat) : Option ComponentRecord :=
  world.components id

/-- Modelled from the spec: a freshly created component record carries no
attached type info, an empty table cache and an empty sparse store
(`flecs_component_new` from `flecs.c`, not in `src/`). -/
def flecs_component_new (id : Nat) : ComponentRecord :=
  { id := id, dontFragment := false, isSparse := false, type_info := none,
    cache := fun _ => none, sparse := fun _ => false }

/-- Modelled from the spec: the ensure variant of component-record lookup
creates the record if absent (`flecs_components_ensure` from `flecs.c`, not in
`src/`); state passing makes the possible creation explicit. -/
def flecs_components_ensure (world : World) (id : Nat) :
    ComponentRecord × World :=
  match world.components id with
  | some cr => (cr, world)
  | none =>
    let cr := flecs_component_new id
    (cr, { world with
             components := fun i => if i = id then some cr else world.components i })

/-- Modelled from the spec: sparse-store read keyed by entity id
(`flecs_component_sparse_get` from `flecs.c`, not in `src/`); the returned
pointer carries sparse provenance. -/
def flecs_component_sparse_get (cr : ComponentRecord) (entity : Nat) :
    Option Ptr :=
  if cr.sparse entity then some (Ptr.sparse cr.id entity) else none

/-- Modelled from the spec: table-cache lookup of a component record's table
record (`flecs_component_get_table` / `ecs_table_cache_get` from `flecs.c`,
not in `src/`), keyed by the table's unique id. -/
def flecs_component_get_table (cr : ComponentRecord) (table : Table) :
    Option TableRecord :=
  cr.cache table.id

/-- Modelled from the spec: address of the component at a column and row of a
table (`flecs_table_get_component` from `flecs.c`, not in `src/`); the
returned pointer carries column provenance. -/
def flecs_table_get_component (table : Table) (col row : Nat) : Option Ptr :=
  some (Ptr.column table.id col row)

/-- Modelled from the spec: the low-id fast-path macro (`ecs_get_low_id` from
`flecs.c`, not in `src/`) — consult the table's direct column map, which
stores column+1 (0 meaning absent), and on a hit return the element address at
the record's row. -/
def ecs_get_low_id (table : Table) (r : Record) (id : Nat) : Option Ptr :=
  if 0 < table.component_map id then
    some (Ptr.column table.id (table.component_map id - 1) (ECS_RECORD_TO_ROW r.row))
  else none

/-- Modelled from the spec: IsA base-chain search worker — walk the declared
base entities in order; a base whose table caches the id with a data column
yields that base's component address; a base whose table lacks the id is
searched transitively; cycle detection is modelled as explicit fuel, spent on
every step. -/
def flecs_get_base_component_go (world : World) (id : Nat)
    (cr : ComponentRecord) : Nat → List Nat → Option Ptr
  | 0, _ => none
  | _, [] => none
  | Nat.succ fuel, b :: rest =>
    match world.records b with
    | none => flecs_get_base_component_go world id cr fuel rest
    | some br =>
      match cr.cache br.table.id with
      | none =>
        match (if br.table.hasIsA then
                 flecs_get_base_component_go world id cr fuel br.table.isaBases
               else none) with
        | some p => some p
        | none => flecs_get_base_component_go world id cr fuel rest
      | some tr =>
        if tr.column = -1 then flecs_get_base_component_go world id cr fuel rest
        else some (Ptr.base b br.table.id tr.column.toNat (ECS_RECORD_TO_ROW br.row))

/-- Modelled from the spec: inherited-component lookup
(`flecs_get_base_component` from `flecs.c`, not in `src/`) — nothing to
inherit when the table does not have the `HasIsA` flag; otherwise search the
IsA base chain, first match wins. -/
def flecs_get_base_component (world : World) (table : Table) (id : Nat)
    (cr : ComponentRecord) : Option Ptr :=
  if table.hasIsA = false then none
  else flecs_get_base_component_go world id cr ECS_MAX_RECURSION table.isaBases

/-- Modelled from the spec: resolve a component pointer for a row of a table
given an optional component record (`flecs_get_component_ptr` from `flecs.c`,
not in `src/`): no record → none; sparse or don't-fragment record → sparse
store keyed by the entity at the row; otherwise the table cache's column at
the row, none when the id is absent or a dataless tag.  Never traverses IsA
bases. -/
def flecs_get_component_ptr (table : Table) (row : Nat)
    (cr? : Option ComponentRecord) : Option Ptr :=
  match cr? with
  | none => none
  | some cr =>
    if cr.isSparse || cr.dontFragment then
      flecs_component_sparse_get cr (table.entities row)
    else
      match flecs_component_get_table cr table with
      | none => none
      | some tr =>
        if tr.column = -1 then none
        else flecs_table_get_component table tr.column.toNat row

/-- Direct translation of `ecs_rust_mut_get_id` (`flecs_rust.c`, lines 5–36):
liveness check, low-id fast path for trivial ids (column map hit or null),
otherwise the component-record path through `flecs_get_component_ptr`. -/
def ecs_rust_mut_get_id (world : World) (entity : Nat) (r : Record)
    (id : Nat) : Option Ptr × Option ErrCode :=
  if world.alive entity = false then (none, some ErrCode.invalidParameter)
  else
    let table := r.table
    if id < FLECS_HI_COMPONENT_ID ∧ world.non_trivial id = false then
      (ecs_get_low_id table r id, none)
    else
      (flecs_get_component_ptr table (ECS_RECORD_TO_ROW r.row)
        (flecs_components_get world id), none)

/-- Direct translation of the general component-record path of
`ecs_rust_get_id` (`flecs_rust.c`, lines 62–88): resolve the component record;
don't-fragment records consult the sparse store first and return a hit
directly; a missing table record falls back to IsA base traversal; sparse
records read from the sparse store instead of the column; a `-1` column
surfaces `ECS_NOT_A_COMPONENT`; otherwise the column address at the row. -/
def ecs_rust_get_id_general (world : World) (entity : Nat) (r : Record)
    (id : Nat) : Option Ptr × Option ErrCode :=
  let table := r.table
  match flecs_components_get world id with
  | none => (none, none)
  | some cr =>
    match (if cr.dontFragment then flecs_component_sparse_get cr entity
           else none) with
    | some p => (some p, none)
    | none =>
      match flecs_component_get_table cr table with
      | none => (flecs_get_base_component world table id cr, none)
      | some tr =>
        if cr.isSparse then (flecs_component_sparse_get cr entity, none)
        else if tr.column = -1 then (none, some ErrCode.notAComponent)
        else (flecs_table_get_component table tr.column.toNat
                (ECS_RECORD_TO_ROW r.row), none)

/-- Direct translation of `ecs_rust_get_id` (`flecs_rust.c`, lines 38–89):
liveness check; for low ids first the direct column map, then — for trivial
ids on tables without IsA — an immediate null; everything else goes through
the general component-record path. -/
def ecs_rust_get_id (world : World) (entity : Nat) (r : Record)
    (id : Nat) : Option Ptr × Option ErrCode :=
  if world.alive entity = false then (none, some ErrCode.invalidParameter)
  else
    let table := r.table
    if id < FLECS_HI_COMPONENT_ID then
      match ecs_get_low_id table r id with
      | some p => (some p, none)
      | none =>
        if world.non_trivial id = false ∧ table.hasIsA = false then
          (none, none)
        else ecs_rust_get_id_general world entity r id
    else ecs_rust_get_id_general world entity r id

/-- Direct translation of `ecs_rust_rel_count` (`flecs_rust.c`, lines 91–114):
`-1` for a null table, a missing component record, or a missing table record;
otherwise the table record's count. -/
def ecs_rust_rel_count (world : World) (id : Nat) (table : Option Table) :
    Int :=
  match table with
  | none => -1
  | some t =>
    match flecs_components_get world id with
    | none => -1
    | some cr =>
      match cr.cache t.id with
      | none => -1
      | some tr => (tr.count : Int)

/-- Modelled from the spec: resolve the pair's first element to a live entity
id, 0 when none is alive for it (`ecs_pair_first` from `flecs.c`, not in
`src/`). -/
def ecs_pair_first (world : World) (id : Nat) : Nat :=
  world.get_alive (ECS_PAIR_FIRST id)

/-- Direct translation of `ecs_rust_get_type_info_from_record`
(`flecs_rust.c`, lines 118–153) in state-passing style: for a pair id with no
known record, ensure the `(R, *)` wildcard record and use it if it carries
type info; otherwise — only when the resolved relation is 0 or lacks the
`EcsPairIsTag` trait — ensure and try `(*, T)`; a resolved record yields its
type info; a flag-free id falls back to the global type-info table; anything
else is null. -/
def ecs_rust_get_type_info_from_record (world : World) (id : Nat)
    (idr : Option ComponentRecord) :
    (Option TypeInfo × Option ErrCode) × World :=
  if id = 0 then ((none, some ErrCode.invalidParameter), world)
  else
    let step : Option ComponentRecord × World :=
      match idr with
      | some cr => (some cr, world)
      | none =>
        if ECS_IS_PAIR id then
          let rw := flecs_components_ensure world
            (ecs_pair (ECS_PAIR_FIRST id) EcsWildcard)
          match (if rw.1.type_info.isSome then some rw.1 else none) with
          | some cr => (some cr, rw.2)
          | none =>
            let first := ecs_pair_first rw.2 id
            if first = 0 ∨ rw.2.has_id first EcsPairIsTag = false then
              let wt := flecs_components_ensure rw.2
                (ecs_pair EcsWildcard (ECS_PAIR_SECOND id))
              ((if wt.1.type_info.isSome then some wt.1 else none), wt.2)
            else (none, rw.2)
        else (none, world)
    match step.1 with
    | some cr => ((cr.type_info, none), step.2)
    | none =>
      if ecs_id_flags id = 0 then ((step.2.type_infos id, none), step.2)
      else ((none, none), step.2)

/-- Modelled from the spec: wildcard-aware id matching — a pair pattern
matches a pair with equal relation and target up to wildcards; a non-pair
pattern matches only itself. -/
def ecs_id_match (pattern i : Nat) : Bool :=
  if ECS_IS_PAIR pattern then
    ECS_IS_PAIR i
      && (ECS_PAIR_FIRST pattern == EcsWildcard
          || ECS_PAIR_FIRST pattern == ECS_PAIR_FIRST i)
      && (ECS_PAIR_SECOND pattern == EcsWildcard
          || ECS_PAIR_SECOND pattern == ECS_PAIR_SECOND i)
  else pattern == i

/-- Byte-copy loop of the wasm sysroot `memcpy` (`memcpy.c`, line 13): copy
`n` bytes one at a time, advancing both cursors. -/
def memcpyLoop : (Nat → Nat) → Nat → Nat → Nat → Nat → Nat
  | mem, _, _, 0 => mem
  | mem, d, s, Nat.succ k =>
    memcpyLoop (fun a => if a = d then mem s else mem a) (d + 1) (s + 1) k

/-- Direct translation of the wasm sysroot `memcpy` (`memcpy.c`, lines 4–15,
non-bulk path): byte memory is a function from addresses to byte values; the
result is the updated memory together with the returned destination
address. -/
def memcpy (mem : Nat → Nat) (dest src n : Nat) : (Nat → Nat) × Nat :=
  (memcpyLoop mem dest src n, dest)

/-! ### Demonstration states used by witnesses -/

/-- Base table of the inheritance demo: stores the demo component in column
2. -/
def tableBase : Table :=
  { id := 2, hasIsA := false, component_map := fun _ => 0,
    entities := fun _ => 0, isaBases := [], typeIds := [] }

/-- Derived table of the inheritance demo: does not store the demo component
itself but has an IsA base (entity 9). -/
def tableDerived : Table :=
  { id := 1, hasIsA := true, component_map := fun _ => 0,
    entities := fun _ => 0, isaBases := [9], typeIds := [] }

/-- Component record for the inheritable demo component (id 300): present in
the base table only. -/
def crInherited : ComponentRecord :=
  { id := 300, dontFragment := false, isSparse := false, type_info := none,
    cache := fun t => if t = 2 then some { column := 2, count := 1 } else none,
    sparse := fun _ => false }

/-- World of the inheritance demo: entity 5 is alive in the derived table,
entity 9 is the base instance in the base table. -/
def worldInherit : World :=
  { alive := fun e => e == 5, non_trivial := fun _ => false,
    components := fun i => if i = 300 then some crInherited else none,
    records := fun e => if e = 9 then some { table := tableBase, row := 4 } else none,
    type_infos := fun _ => none, get_alive := fun _ => 0,
    has_id := fun _ _ => false }

/-- Entity record of the derived entity in the inheritance demo. -/
def recDerived : Record := { table := tableDerived, row := 0 }

/-- Table of the owned-component demo: component id 10 in column 0 via the
low-id map. -/
def tableOwn : Table :=
  { id := 3, hasIsA := false,
    component_map := fun i => if i = 10 then 1 else 0,
    entities := fun _ => 0, isaBases := [], typeIds := [] }

/-- Entity record sitting at row 0 of the owned-component demo table. -/
def recOwn : Record := { table := tableOwn, row := 0 }

/-- World of the owned-component demo: everything alive, nothing registered
beyond the table's own column map. -/
def worldOwn : World :=
  { alive := fun _ => true, non_trivial := fun _ => false,
    components := fun _ => none, records := fun _ => none,
    type_infos := fun _ => none, get_alive := fun _ => 0,
    has_id := fun _ _ => false }

/-- World in which no entity is alive. -/
def worldDead : World :=
  { alive := fun _ => false, non_trivial := fun _ => false,
    components := fun _ => none, records := fun _ => none,
    type_infos := fun _ => none, get_alive := fun _ => 0,
    has_id := fun _ _ => false }

/-! ### Helper lemmas -/

/-- Any pointer produced by the low-id fast path is a column pointer of the
entity's own table, never an inherited one. -/
theorem ecs_get_low_id_not_base (t : Table) (r : Record) (id : Nat) (p : Ptr)
    (h : ecs_get_low_id t r id = some p) : p.isBase = false := by
  unfold ecs_get_low_id at h
  split at h
  · cases h; rfl
  · cases h

/-- Any pointer produced by `flecs_get_component_ptr` comes from the table's
own column or the sparse store, never from IsA traversal. -/
theorem flecs_get_component_ptr_not_base (t : Table) (row : Nat)
    (cr? : Option ComponentRecord) (p : Ptr)
    (h : flecs_get_component_ptr t row cr? = some p) : p.isBase = false := by
  unfold flecs_get_component_ptr at h
  match cr? with
  | none => cases h
  | some cr =>
    simp only at h
    split at h
    · unfold flecs_component_sparse_get at h
      split at h
      · cases h; rfl
      · cases h
    · split at h
      · cases h
      · rename_i tr _
        split at h
        · cases h
        · unfold flecs_table_get_component at h
          cases h; rfl

/-! ### Claims -/

/-- C1: `ecs_rust_mut_get_id` never returns a pointer obtained through IsA
base-chain traversal — every pointer it returns is a column or sparse pointer
of the entity's own storage — even though `ecs_rust_get_id` on the same
`(entity, id)` can return an inherited base component's pointer found by
`flecs_get_base_component`. -/
theorem c1_mut_get_never_inherited :
    (∀ (world : World) (entity : Nat) (r : Record) (id : Nat) (p : Ptr)
        (err : Option ErrCode),
      ecs_rust_mut_get_id world entity r id = (some p, err) → p.isBase = false)
    ∧ (∃ (world : World) (entity : Nat) (r : Record) (id : Nat) (p : Ptr),
      (ecs_rust_get_id world entity r id).1 = some p ∧ p.isBase = true
      ∧ (ecs_rust_mut_get_id world entity r id).1 = none) := by
  constructor
  · intro world entity r id p err h
    unfold ecs_rust_mut_get_id at h
    split at h
    · cases h
    · simp only at h
      split at h
      · have hp : ecs_get_low_id r.table r id = some p :=
          congrArg Prod.fst h
        exact ecs_get_low_id_not_base _ _ _ _ hp
      · have hp : flecs_get_component_ptr r.table (ECS_RECORD_TO_ROW r.row)
            (flecs_components_get world id) = some p :=
          congrArg Prod.fst h
        exact flecs_get_component_ptr_not_base _ _ _ _ hp
  · exact ⟨worldInherit, 5, recDerived, 300, Ptr.base 9 2 2 4,
      by decide, rfl, by decide⟩

/-- Witness for C1: a concrete call on which `ecs_rust_mut_get_id` does return
a pointer, and that pointer is not an inherited one. -/
theorem c1_mut_get_never_inherited_witness :
    Ptr.isBase (Ptr.column 3 0 0) = false :=
  c1_mut_get_never_inherited.1 worldOwn 5 recOwn 10 (Ptr.column 3 0 0) none
    (by decide)

/-- C8: when the entity is not alive, both `ecs_rust_get_id` and
`ecs_rust_mut_get_id` return null after surfacing an invalid-parameter
diagnostic; the result is the same for every entity record and id, so no
table, column or sparse data influences it. -/
theorem c8_dead_entity_fails_fast :
    ∀ (world : World) (entity : Nat) (r : Record) (id : Nat),
      world.alive entity = false →
      ecs_rust_get_id world entity r id = (none, some ErrCode.invalidParameter)
      ∧ ecs_rust_mut_get_id world entity r id
          = (none, some ErrCode.invalidParameter) := by
  intro world entity r id h
  constructor
  · unfold ecs_rust_get_id
    rw [if_pos h]
  · unfold ecs_rust_mut_get_id
    rw [if_pos h]

/-- Witness for C8: the dead-entity fast failure on a concrete world. -/
theorem c8_dead_entity_fails_fast_witness :
    ecs_rust_get_id worldDead 1 recOwn 10
        = (none, some ErrCode.invalidParameter)
    ∧ ecs_rust_mut_get_id worldDead 1 recOwn 10
        = (none, some ErrCode.invalidParameter) :=
  c8_dead_entity_fails_fast worldDead 1 recOwn 10 rfl

/-- Component record of the sparse demo (id 300): don't-fragment and sparse,
present in the demo table's cache as a dataless entry, sparse data for entity
5. -/
def crSparse : ComponentRecord :=
  { id := 300, dontFragment := true, isSparse := true, type_info := none,
    cache := fun t => if t = 3 then some { column := -1, count := 1 } else none,
    sparse := fun e => e == 5 }

/-- World of the sparse demo. -/
def worldSparse : World :=
  { alive := fun _ => true, non_trivial := fun _ => false,
    components := fun i => if i = 300 then some crSparse else none,
    records := fun _ => none, type_infos := fun _ => none,
    get_alive := fun _ => 0, has_id := fun _ _ => false }

/-- C4: in `ecs_rust_get_id`, a don't-fragment component record has its
sparse store consulted before the table/column path, and a hit is returned
directly; a sparse component record is read from the sparse store instead of
the table's column storage even when the table caches a table record. -/
theorem c4_sparse_paths :
    (∀ (world : World) (entity : Nat) (r : Record) (id : Nat)
        (cr : ComponentRecord) (p : Ptr),
      world.alive entity = true → FLECS_HI_COMPONENT_ID ≤ id →
      world.components id = some cr → cr.dontFragment = true →
      flecs_component_sparse_get cr entity = some p →
      ecs_rust_get_id world entity r id = (some p, none))
    ∧ (∀ (world : World) (entity : Nat) (r : Record) (id : Nat)
        (cr : ComponentRecord) (tr : TableRecord),
      world.alive entity = true → FLECS_HI_COMPONENT_ID ≤ id →
      world.components id = some cr → cr.isSparse = true →
      cr.cache r.table.id = some tr →
      (ecs_rust_get_id world entity r id).1
        = flecs_component_sparse_get cr entity) := by
  constructor
  · intro world entity r id cr p halive hid hcr hdf hsp
    have hlt : ¬ id < FLECS_HI_COMPONENT_ID := by omega
    unfold ecs_rust_get_id
    rw [if_neg (by simp [halive]), if_neg hlt]
    unfold ecs_rust_get_id_general flecs_components_get
    rw [hcr]
    simp [hdf, hsp]
  · intro world entity r id cr tr halive hid hcr hsp hcache
    have hlt : ¬ id < FLECS_HI_COMPONENT_ID := by omega
    unfold ecs_rust_get_id
    rw [if_neg (by simp [halive]), if_neg hlt]
    unfold ecs_rust_get_id_general flecs_components_get
    rw [hcr]
    simp only
    cases hdf : cr.dontFragment with
    | false =>
      simp [flecs_component_get_table, hcache, hsp]
    | true =>
      cases hhit : flecs_component_sparse_get cr entity with
      | none => simp [flecs_component_get_table, hcache, hsp, hhit]
      | some p => simp [hhit]

/-- Witness for C4: both sparse paths exercised on the concrete sparse demo
world. -/
theorem c4_sparse_paths_witness :
    ecs_rust_get_id worldSparse 5 recOwn 300 = (some (Ptr.sparse 300 5), none)
    ∧ (ecs_rust_get_id worldSparse 5 recOwn 300).1
        = flecs_component_sparse_get crSparse 5 :=
  ⟨c4_sparse_paths.1 worldSparse 5 recOwn 300 crSparse (Ptr.sparse 300 5)
      rfl (by decide) rfl rfl rfl,
   c4_sparse_paths.2 worldSparse 5 recOwn 300 crSparse { column := -1, count := 1 }
      rfl (by decide) rfl rfl rfl⟩

/-- Component record of the dataless-tag demo (id 300): cached for the demo
table with column `-1`, no sparse flags. -/
def crTag : ComponentRecord :=
  { id := 300, dontFragment := false, isSparse := false, type_info := none,
    cache := fun t => if t = 3 then some { column := -1, count := 1 } else none,
    sparse := fun _ => false }

/-- World of the dataless-tag demo. -/
def worldTag : World :=
  { alive := fun _ => true, non_trivial := fun _ => false,
    components := fun i => if i = 300 then some crTag else none,
    records := fun _ => none, type_infos := fun _ => none,
    get_alive := fun _ => 0, has_id := fun _ _ => false }

/-- Counterexample to C7: entity 5 is alive, its table holds id 300 with a
table-record column of `-1`, and the `tr->column != -1` check surfaces an
`ECS_NOT_A_COMPONENT` diagnostic — the null is not diagnostic-free. -/
theorem c7_tag_counterexample :
    worldTag.alive 5 = true
    ∧ worldTag.components 300 = some crTag
    ∧ crTag.cache recOwn.table.id = some { column := -1, count := 1 }
    ∧ (ecs_rust_get_id worldTag 5 recOwn 300).2 = some ErrCode.notAComponent := by
  refine ⟨rfl, rfl, rfl, by decide⟩

/-- C7 (amended): for an alive entity whose table caches the id with column
`-1` on the component-record path, `ecs_rust_get_id` returns null, but it does
so through the `tr->column != -1` check, surfacing an `ECS_NOT_A_COMPONENT`
diagnostic rather than a silent not-present result. -/
theorem c7_tag_column_surfaces_diagnostic :
    ∀ (world : World) (entity : Nat) (r : Record) (id : Nat)
      (cr : ComponentRecord) (tr : TableRecord),
      world.alive entity = true → FLECS_HI_COMPONENT_ID ≤ id →
      world.components id = some cr → cr.dontFragment = false →
      cr.isSparse = false → cr.cache r.table.id = some tr → tr.column = -1 →
      ecs_rust_get_id world entity r id = (none, some ErrCode.notAComponent) := by
  intro world entity r id cr tr halive hid hcr hdf hsp hcache hcol
  have hlt : ¬ id < FLECS_HI_COMPONENT_ID := by omega
  unfold ecs_rust_get_id
  rw [if_neg (by simp [halive]), if_neg hlt]
  unfold ecs_rust_get_id_general flecs_components_get
  rw [hcr]
  simp [hdf, flecs_component_get_table, hcache, hsp, hcol]

/-- Witness for C7's amended theorem on the dataless-tag demo world. -/
theorem c7_tag_column_surfaces_diagnostic_witness :
    ecs_rust_get_id worldTag 5 recOwn 300
      = (none, some ErrCode.notAComponent) :=
  c7_tag_column_surfaces_diagnostic worldTag 5 recOwn 300 crTag
    { column := -1, count := 1 } rfl (by decide) rfl rfl rfl rfl rfl

/-- Two 64-bit ids with the pair flag nibble, equal relation fields and equal
target fields are the same id. -/
theorem pair_fields_inj (id j : Nat) (_hid : id < 2 ^ 64) (_hj : j < 2 ^ 64)
    (hid8 : id / 2 ^ 60 = 8) (hj8 : j / 2 ^ 60 = 8)
    (hf : (id % 2 ^ 60) / 2 ^ 32 = (j % 2 ^ 60) / 2 ^ 32)
    (hs : id % 2 ^ 32 = j % 2 ^ 32) : id = j := by
  omega

/-- Matching against a non-wildcard pair pattern is exact id equality (over
64-bit ids). -/
theorem ecs_id_match_eq (id j : Nat) (hid : id < 2 ^ 64) (hj : j < 2 ^ 64)
    (hp : ECS_IS_PAIR id = true) (h1 : ECS_PAIR_FIRST id ≠ EcsWildcard)
    (h2 : ECS_PAIR_SECOND id ≠ EcsWildcard) :
    ecs_id_match id j = (j == id) := by
  unfold ecs_id_match
  rw [if_pos hp]
  rcases eq_or_ne j id with h | h
  · subst h
    simp [hp]
  · rw [beq_eq_false_iff_ne.mpr h]
    refine Bool.eq_false_iff.mpr fun htrue => ?_
    simp only [Bool.and_eq_true, Bool.or_eq_true, beq_iff_eq] at htrue
    obtain ⟨⟨hpj, hf⟩, hs⟩ := htrue
    rcases hf with hf | hf
    · exact h1 hf
    rcases hs with hs | hs
    · exact h2 hs
    have hid8 : id / 2 ^ 60 = 8 := by
      have h' := hp
      unfold ECS_IS_PAIR ecs_id_flags at h'
      rw [Nat.mod_eq_of_lt hid] at h'
      exact beq_iff_eq.mp h'
    have hj8 : j / 2 ^ 60 = 8 := by
      unfold ECS_IS_PAIR ecs_id_flags at hpj
      rw [Nat.mod_eq_of_lt hj] at hpj
      exact beq_iff_eq.mp hpj
    unfold ECS_PAIR_FIRST at hf
    unfold ECS_PAIR_SECOND at hs
    exact h (pair_fields_inj id j hid hj hid8 hj8 hf hs).symm

/-- Filtering a bounded id list by a non-wildcard pair pattern keeps exactly
the occurrences of the pattern itself. -/
theorem filter_match_eq_count (id : Nat) (l : List Nat) (hid : id < 2 ^ 64)
    (hp : ECS_IS_PAIR id = true) (h1 : ECS_PAIR_FIRST id ≠ EcsWildcard)
    (h2 : ECS_PAIR_SECOND id ≠ EcsWildcard) (hb : ∀ j ∈ l, j < 2 ^ 64) :
    (l.filter (fun j => ecs_id_match id j)).length = l.count id := by
  induction l with
  | nil => rfl
  | cons a l ih =>
    have ha : a < 2 ^ 64 := hb a (List.mem_cons_self a l)
    have hl : ∀ j ∈ l, j < 2 ^ 64 := fun j hj => hb j (List.mem_cons_of_mem a hj)
    rw [List.filter_cons, List.count_cons, ecs_id_match_eq id a hid ha hp h1 h2]
    cases hae : (a == id) with
    | true => simp [ih hl]
    | false => simp [ih hl]

/-- C6: `ecs_rust_rel_count` returns `-1` exactly when the table is absent, no
component record exists for the id, or the record's cache has no table record
for the table; otherwise it returns the table record's count, which is
non-negative and equals 1 when the table holds exactly one instance of a
non-wildcard pair and the count invariant (count = number of matching ids in
the table's type) holds. -/
theorem c6_rel_count_contract :
    (∀ (world : World) (id : Nat) (t? : Option Table),
      ecs_rust_rel_count world id t? = -1 ↔
        (t? = none
         ∨ ∃ t, t? = some t ∧
            (world.components id = none
             ∨ ∃ cr, world.components id = some cr ∧ cr.cache t.id = none)))
    ∧ (∀ (world : World) (id : Nat) (t : Table) (cr : ComponentRecord)
          (tr : TableRecord),
        world.components id = some cr → cr.cache t.id = some tr →
        ecs_rust_rel_count world id (some t) = (tr.count : Int)
        ∧ 0 ≤ ecs_rust_rel_count world id (some t))
    ∧ (∀ (world : World) (id : Nat) (t : Table) (cr : ComponentRecord)
          (tr : TableRecord),
        world.components id = some cr → cr.cache t.id = some tr →
        id < 2 ^ 64 → ECS_IS_PAIR id = true →
        ECS_PAIR_FIRST id ≠ EcsWildcard → ECS_PAIR_SECOND id ≠ EcsWildcard →
        (∀ j ∈ t.typeIds, j < 2 ^ 64) →
        tr.count = (t.typeIds.filter (fun j => ecs_id_match id j)).length →
        t.typeIds.count id = 1 →
        ecs_rust_rel_count world id (some t) = 1) := by
  refine ⟨?_, ?_, ?_⟩
  · intro world id t?
    unfold ecs_rust_rel_count flecs_components_get
    match t? with
    | none => simp
    | some t =>
      match hcr : world.components id with
      | none => simp [hcr]
      | some cr =>
        match htr : cr.cache t.id with
        | none => simp [hcr, htr]
        | some tr => simp [hcr, htr]
  · intro world id t cr tr hcr htr
    unfold ecs_rust_rel_count flecs_components_get
    rw [hcr]
    dsimp only
    rw [htr]
    exact ⟨rfl, by positivity⟩

  · intro world id t cr tr hcr htr hid hp h1 h2 hb hcount hone
    unfold ecs_rust_rel_count flecs_components_get
    rw [hcr]
    dsimp only
    rw [htr]
    dsimp only
    rw [hcount, filter_match_eq_count id t.typeIds hid hp h1 h2 hb, hone]
    rfl

/-- Table of the wildcard-pair counting demo: holds exactly one instance of
the pair `(5, 7)`. -/
def tRel : Table :=
  { id := 3, hasIsA := false, component_map := fun _ => 0,
    entities := fun _ => 0, isaBases := [], typeIds := [ecs_pair 5 7] }

/-- Component record of the pair `(5, 7)` in the counting demo, cached for the
demo table with count 1. -/
def crRel : ComponentRecord :=
  { id := ecs_pair 5 7, dontFragment := false, isSparse := false,
    type_info := none,
    cache := fun t => if t = 3 then some { column := -1, count := 1 } else none,
    sparse := fun _ => false }

/-- World of the pair counting demo. -/
def worldRel : World :=
  { alive := fun _ => true, non_trivial := fun _ => false,
    components := fun i => if i = ecs_pair 5 7 then some crRel else none,
    records := fun _ => none, type_infos := fun _ => none,
    get_alive := fun _ => 0, has_id := fun _ _ => false }

/-- Witness for C6: a null table yields `-1`, and a table holding exactly one
instance of the non-wildcard pair `(5, 7)` yields count 1, along with the
general count result. -/
theorem c6_rel_count_contract_witness :
    ecs_rust_rel_count worldRel (ecs_pair 5 7) none = -1
    ∧ ecs_rust_rel_count worldRel (ecs_pair 5 7) (some tRel) = (1 : Nat)
    ∧ ecs_rust_rel_count worldRel (ecs_pair 5 7) (some tRel) = 1 :=
  ⟨(c6_rel_count_contract.1 worldRel (ecs_pair 5 7) none).mpr (Or.inl rfl),
   (c6_rel_count_contract.2.1 worldRel (ecs_pair 5 7) tRel crRel
      { column := -1, count := 1 } rfl rfl).1,
   c6_rel_count_contract.2.2 worldRel (ecs_pair 5 7) tRel crRel
      { column := -1, count := 1 } rfl rfl (by decide) (by decide) (by decide)
      (by decide) (by decide) (by decide) (by decide)⟩

/-- Invariant of the low-id fast path: a low id whose `non_trivial` flag is
unset never has sparse or don't-fragment semantics on its component record. -/
def low_trivial_flags_ok (world : World) (id : Nat) : Prop :=
  ∀ cr, world.components id = some cr →
    cr.dontFragment = false ∧ cr.isSparse = false

/-- Invariant of the low-id fast path: the table's direct column map stores
column+1 for the id exactly when the component record's table cache has a data
column for this table, and 0 otherwise. -/
def low_map_consistent (world : World) (t : Table) (id : Nat) : Prop :=
  match world.components id with
  | none => t.component_map id = 0
  | some cr =>
    match cr.cache t.id with
    | none => t.component_map id = 0
    | some tr =>
      if tr.column = -1 then t.component_map id = 0
      else tr.column + 1 = (t.component_map id : Int)

/-- C2: for a low id with the `non_trivial` flag unset, `ecs_rust_get_id`
resolves through the table's direct column map and (under the map/flag
consistency invariants) returns the same pointer the general Component-Record
path would produce; and when the id is absent from the map and the table has
no `HasIsA` flag, the result is null for every world — in particular
independently of the Component-Record index. -/
theorem c2_low_fast_path_equivalence :
    (∀ (world : World) (entity : Nat) (r : Record) (id : Nat),
      id < FLECS_HI_COMPONENT_ID → world.non_trivial id = false →
      world.alive entity = true →
      low_trivial_flags_ok world id → low_map_consistent world r.table id →
      (ecs_rust_get_id world entity r id).1
        = (ecs_rust_get_id_general world entity r id).1)
    ∧ (∀ (world : World) (entity : Nat) (r : Record) (id : Nat),
      id < FLECS_HI_COMPONENT_ID → world.non_trivial id = false →
      r.table.component_map id = 0 → r.table.hasIsA = false →
      (ecs_rust_get_id world entity r id).1 = none) := by
  constructor
  · intro world entity r id hlt hnt halive hflags hmap
    unfold ecs_rust_get_id
    rw [if_neg (by simp [halive])]
    dsimp only
    rw [if_pos hlt]
    cases hm : ecs_get_low_id r.table r id with
    | some p =>
      unfold ecs_get_low_id at hm
      split at hm
      · cases hm
        unfold low_map_consistent at hmap
        cases hcr : world.components id with
        | none =>
          rw [hcr] at hmap; dsimp only at hmap; omega
        | some cr =>
          rw [hcr] at hmap; dsimp only at hmap
          cases hca : cr.cache r.table.id with
          | none => rw [hca] at hmap; dsimp only at hmap; omega
          | some tr =>
            rw [hca] at hmap; dsimp only at hmap
            split at hmap
            · omega
            · rename_i h0 hcol
              obtain ⟨hdf, hsp⟩ := hflags cr hcr
              unfold ecs_rust_get_id_general flecs_components_get
              rw [hcr]
              dsimp only
              rw [hdf]
              simp only [if_neg (by simp : ¬ (false = true))]
              unfold flecs_component_get_table
              rw [hca]
              dsimp only
              rw [hsp]
              simp only [if_neg (by simp : ¬ (false = true)), if_neg hcol]
              unfold flecs_table_get_component
              have htn : tr.column.toNat = r.table.component_map id - 1 := by
                omega
              rw [htn]
      · cases hm
    | none =>
      unfold ecs_get_low_id at hm
      split at hm
      · cases hm
      · rename_i h0
        have hmap0 : r.table.component_map id = 0 := by omega
        by_cases hisa : r.table.hasIsA = false
        · rw [if_pos ⟨hnt, hisa⟩]
          unfold low_map_consistent at hmap
          cases hcr : world.components id with
          | none =>
            unfold ecs_rust_get_id_general flecs_components_get
            rw [hcr]
          | some cr =>
            rw [hcr] at hmap; dsimp only at hmap
            obtain ⟨hdf, hsp⟩ := hflags cr hcr
            unfold ecs_rust_get_id_general flecs_components_get
            rw [hcr]
            dsimp only
            rw [hdf]
            simp only [if_neg (by simp : ¬ (false = true))]
            cases hca : cr.cache r.table.id with
            | none =>
              unfold flecs_component_get_table
              rw [hca]
              dsimp only
              unfold flecs_get_base_component
              rw [if_pos hisa]
            | some tr =>
              rw [hca] at hmap; dsimp only at hmap
              split at hmap
              · rename_i hcol
                unfold flecs_component_get_table
                rw [hca]
                dsimp only
                rw [hsp]
                simp only [if_neg (by simp : ¬ (false = true)), if_pos hcol]
              · omega
        · rw [if_neg (fun hh => hisa hh.2)]
  · intro world entity r id hlt hnt hmap hisa
    unfold ecs_rust_get_id
    split
    · rfl
    · dsimp only
      unfold ecs_get_low_id
      rw [hmap]
      simp only [if_neg (by omega : ¬ (0 < 0))]
      rw [if_pos ⟨hnt, hisa⟩]

/-- Component record of the fast-path demo: low id 10 cached for the demo
table in column 0, consistently with the table's direct column map. -/
def crFast : ComponentRecord :=
  { id := 10, dontFragment := false, isSparse := false, type_info := none,
    cache := fun t => if t = 3 then some { column := 0, count := 1 } else none,
    sparse := fun _ => false }

/-- World of the fast-path demo. -/
def worldFast : World :=
  { alive := fun _ => true, non_trivial := fun _ => false,
    components := fun i => if i = 10 then some crFast else none,
    records := fun _ => none, type_infos := fun _ => none,
    get_alive := fun _ => 0, has_id := fun _ _ => false }

/-- Witness for C2: both the fast path / general path agreement (on a world
where the low id is registered and cached consistently) and the immediate null
for an id absent from the column map on a table without IsA. -/
theorem c2_low_fast_path_equivalence_witness :
    (ecs_rust_get_id worldFast 5 recOwn 10).1
      = (ecs_rust_get_id_general worldFast 5 recOwn 10).1
    ∧ (ecs_rust_get_id worldOwn 5 recOwn 11).1 = none :=
  ⟨c2_low_fast_path_equivalence.1 worldFast 5 recOwn 10 (by decide) rfl rfl
      (fun cr h => by
        rw [show worldFast.components 10 = some crFast from rfl] at h
        cases h
        exact ⟨rfl, rfl⟩)
      (by simp [low_map_consistent, worldFast, crFast, recOwn, tableOwn]),
   c2_low_fast_path_equivalence.2 worldOwn 5 recOwn 11 (by decide) rfl rfl
      rfl⟩

/-- C10: for a non-pair id with any flag bits set, the type-info lookup with a
null known record returns null and leaves the world untouched — for every
world, so the global per-component type-info table is never consulted; the
global fallback is reserved for ids with no flag bits. -/
theorem c10_flagged_nonpair_yields_null :
    ∀ (world : World) (id : Nat),
      id ≠ 0 → ECS_IS_PAIR id = false → ecs_id_flags id ≠ 0 →
      ecs_rust_get_type_info_from_record world id none
        = ((none, none), world) := by
  intro world id h0 hnp hf
  unfold ecs_rust_get_type_info_from_record
  rw [if_neg h0]
  dsimp only
  rw [hnp]
  simp [hf]

/-- Witness for C10 at a concrete toggle-flagged non-pair id. -/
theorem c10_flagged_nonpair_yields_null_witness :
    ecs_rust_get_type_info_from_record worldOwn (2 ^ 61 + 5) none
      = ((none, none), worldOwn) :=
  c10_flagged_nonpair_yields_null worldOwn (2 ^ 61 + 5) (by decide) (by decide)
    (by decide)

/-- Counterexample to C5: calling the type-info lookup on an empty world with
a pair id and no known record creates the `(5, *)` wildcard component record —
the component-record index does not stay unchanged. -/
theorem c5_type_info_counterexample :
    (worldOwn.components (ecs_pair 5 EcsWildcard)).isSome = false
    ∧ (((ecs_rust_get_type_info_from_record worldOwn (ecs_pair 5 7)
          none).2).components (ecs_pair 5 EcsWildcard)).isSome = true :=
  ⟨rfl, rfl⟩

/-- C5 (amended): the type-info lookup leaves the world's component-record
index unchanged except through the wildcard ensure path, i.e. whenever the id
is not a pair or a record is already supplied; for a pair id with a null
record it may create the `(R, *)` and `(*, T)` wildcard records. -/
theorem c5_type_info_frame (world : World) (id : Nat)
    (idr : Option ComponentRecord)
    (h : ECS_IS_PAIR id = false ∨ idr ≠ none) :
    (ecs_rust_get_type_info_from_record world id idr).2 = world := by
  unfold ecs_rust_get_type_info_from_record
  by_cases h0 : id = 0
  · rw [if_pos h0]
  · rw [if_neg h0]
    dsimp only
    match idr with
    | some cr => rfl
    | none =>
      rcases h with h | h
      · rw [h]
        rw [if_neg (by simp : ¬ (false = true))]
        dsimp only
        split
        · rfl
        · rfl
      · exact absurd rfl h

/-- Pair ids have the pair flag nibble set, so their flag bits are nonzero. -/
theorem pair_flags_ne_zero (id : Nat) (h : ECS_IS_PAIR id = true) :
    ecs_id_flags id ≠ 0 := by
  have h8 : ecs_id_flags id = 8 := beq_iff_eq.mp h
  omega

/-- C3: for a pair id with no known record, the fallback order is fixed —
`(R, *)` is consulted first and its attached type info returned when present;
when `(R, *)` yields no type info, `(*, T)` is consulted only when the
resolved relation is 0 or lacks the `EcsPairIsTag` trait, and its attached
type info (or null) is the result; when the relation carries `EcsPairIsTag`,
the result is null without regard to `(*, T)`; for a flag-free non-pair id
the result comes from the global per-component type-info table. -/
theorem c3_pair_fallback_order :
    (∀ (world : World) (id : Nat) (cr : ComponentRecord) (ti : TypeInfo),
      id ≠ 0 → ECS_IS_PAIR id = true →
      world.components (ecs_pair (ECS_PAIR_FIRST id) EcsWildcard) = some cr →
      cr.type_info = some ti →
      (ecs_rust_get_type_info_from_record world id none).1.1 = some ti)
    ∧ (∀ (world : World) (id : Nat),
      id ≠ 0 → ECS_IS_PAIR id = true →
      (∀ cr,
        world.components (ecs_pair (ECS_PAIR_FIRST id) EcsWildcard) = some cr →
        cr.type_info = none) →
      world.get_alive (ECS_PAIR_FIRST id) ≠ 0 →
      world.has_id (world.get_alive (ECS_PAIR_FIRST id)) EcsPairIsTag = true →
      (ecs_rust_get_type_info_from_record world id none).1.1 = none)
    ∧ (∀ (world : World) (id : Nat),
      id ≠ 0 → ECS_IS_PAIR id = true →
      (∀ cr,
        world.components (ecs_pair (ECS_PAIR_FIRST id) EcsWildcard) = some cr →
        cr.type_info = none) →
      (world.get_alive (ECS_PAIR_FIRST id) = 0
       ∨ world.has_id (world.get_alive (ECS_PAIR_FIRST id)) EcsPairIsTag
           = false) →
      (ecs_rust_get_type_info_from_record world id none).1.1
        = Option.bind
            (world.components (ecs_pair EcsWildcard (ECS_PAIR_SECOND id)))
            ComponentRecord.type_info)
    ∧ (∀ (world : World) (id : Nat),
      id ≠ 0 → ecs_id_flags id = 0 →
      (ecs_rust_get_type_info_from_record world id none).1.1
        = world.type_infos id) := by
  refine ⟨?_, ?_, ?_, ?_⟩
  · intro world id cr ti h0 hpair hcr hti
    simp [ecs_rust_get_type_info_from_record, flecs_components_ensure, h0,
      hpair, hcr, hti]
  · intro world id h0 hpair hno hfirst htag
    have hf := pair_flags_ne_zero id hpair
    cases hrw : world.components (ecs_pair (ECS_PAIR_FIRST id) EcsWildcard) with
    | some cr =>
      have hti := hno cr hrw
      simp [ecs_rust_get_type_info_from_record, flecs_components_ensure, h0,
        hpair, hrw, hti, ecs_pair_first, hfirst, htag, hf]
    | none =>
      simp [ecs_rust_get_type_info_from_record, flecs_components_ensure, h0,
        hpair, hrw, flecs_component_new, ecs_pair_first, hfirst, htag, hf]
  · intro world id h0 hpair hno hcond
    have hf := pair_flags_ne_zero id hpair
    have hcond' :
        world.get_alive (ECS_PAIR_FIRST id) = 0
        ∨ world.has_id (world.get_alive (ECS_PAIR_FIRST id)) EcsPairIsTag
            = false := hcond
    cases hrw : world.components (ecs_pair (ECS_PAIR_FIRST id) EcsWildcard) with
    | some cr =>
      have hti := hno cr hrw
      cases hwt : world.components (ecs_pair EcsWildcard (ECS_PAIR_SECOND id)) with
      | some cr2 =>
        cases hti2 : cr2.type_info with
        | some t =>
          simp [ecs_rust_get_type_info_from_record, flecs_components_ensure,
            h0, hpair, hrw, hti, ecs_pair_first, hcond', hwt, hti2, hf]
        | none =>
          simp [ecs_rust_get_type_info_from_record, flecs_components_ensure,
            h0, hpair, hrw, hti, ecs_pair_first, hcond', hwt, hti2, hf]
      | none =>
        simp [ecs_rust_get_type_info_from_record, flecs_components_ensure,
          h0, hpair, hrw, hti, ecs_pair_first, hcond', hwt,
          flecs_component_new, hf]
    | none =>
      by_cases heq : ecs_pair EcsWildcard (ECS_PAIR_SECOND id)
          = ecs_pair (ECS_PAIR_FIRST id) EcsWildcard
      · rw [heq]
        simp [ecs_rust_get_type_info_from_record, flecs_components_ensure,
          h0, hpair, hrw, flecs_component_new, ecs_pair_first, hcond', hf,
          heq]
      · cases hwt : world.components (ecs_pair EcsWildcard (ECS_PAIR_SECOND id)) with
        | some cr2 =>
          cases hti2 : cr2.type_info with
          | some t =>
            simp [ecs_rust_get_type_info_from_record, flecs_components_ensure,
              h0, hpair, hrw, flecs_component_new, ecs_pair_first, hcond',
              heq, hwt, hti2, hf]
          | none =>
            simp [ecs_rust_get_type_info_from_record, flecs_components_ensure,
              h0, hpair, hrw, flecs_component_new, ecs_pair_first, hcond',
              heq, hwt, hti2, hf]
        | none =>
          simp [ecs_rust_get_type_info_from_record, flecs_components_ensure,
            h0, hpair, hrw, flecs_component_new, ecs_pair_first, hcond',
            heq, hwt, hf]
  · intro world id h0 hfl
    have hnp : ECS_IS_PAIR id = false := by
      unfold ECS_IS_PAIR
      rw [hfl]
      rfl
    simp [ecs_rust_get_type_info_from_record, h0, hnp, hfl]

/-- Component record of the `(5, *)` wildcard with attached type info, for the
fallback demo. -/
def crRW : ComponentRecord :=
  { id := ecs_pair 5 EcsWildcard, dontFragment := false, isSparse := false,
    type_info := some { component := 42, size := 4 },
    cache := fun _ => none, sparse := fun _ => false }

/-- World in which the `(5, *)` wildcard record carries type info. -/
def worldTI : World :=
  { alive := fun _ => true, non_trivial := fun _ => false,
    components := fun i => if i = ecs_pair 5 EcsWildcard then some crRW else none,
    records := fun _ => none, type_infos := fun _ => none,
    get_alive := fun _ => 0, has_id := fun _ _ => false }

/-- World in which relation 5 resolves to a live entity carrying the
`EcsPairIsTag` trait. -/
def worldIsTag : World :=
  { alive := fun _ => true, non_trivial := fun _ => false,
    components := fun _ => none, records := fun _ => none,
    type_infos := fun _ => none, get_alive := fun x => x,
    has_id := fun e t => e == 5 && t == EcsPairIsTag }

/-- World whose global type-info table has an entry for component 30. -/
def worldGlobalTI : World :=
  { alive := fun _ => true, non_trivial := fun _ => false,
    components := fun _ => none, records := fun _ => none,
    type_infos := fun i => if i = 30 then some { component := 30, size := 8 } else none,
    get_alive := fun _ => 0, has_id := fun _ _ => false }

/-- Witness for C3: all four fallback branches exercised on concrete
worlds. -/
theorem c3_pair_fallback_order_witness :
    (ecs_rust_get_type_info_from_record worldTI (ecs_pair 5 7) none).1.1
      = some { component := 42, size := 4 }
    ∧ (ecs_rust_get_type_info_from_record worldIsTag (ecs_pair 5 7) none).1.1
        = none
    ∧ (ecs_rust_get_type_info_from_record worldOwn (ecs_pair 5 7) none).1.1
        = none
    ∧ (ecs_rust_get_type_info_from_record worldGlobalTI 30 none).1.1
        = worldGlobalTI.type_infos 30 :=
  ⟨c3_pair_fallback_order.1 worldTI (ecs_pair 5 7) crRW
      { component := 42, size := 4 } (by decide) (by decide) rfl rfl,
   c3_pair_fallback_order.2.1 worldIsTag (ecs_pair 5 7) (by decide) (by decide)
      (fun cr h => Option.noConfusion h) (by decide) (by decide),
   (c3_pair_fallback_order.2.2.1 worldOwn (ecs_pair 5 7) (by decide)
      (by decide) (fun cr h => Option.noConfusion h) (Or.inl rfl)).trans rfl,
   c3_pair_fallback_order.2.2.2 worldGlobalTI 30 (by decide) (by decide)⟩

/-- Witness for C5's amended frame theorem at a concrete non-pair id. -/
theorem c5_type_info_frame_witness :
    (ecs_rust_get_type_info_from_record worldOwn 300 none).2 = worldOwn :=
  c5_type_info_frame worldOwn 300 none (Or.inl (by decide))

/-- Frame property of the copy loop: addresses below the destination cursor or
at/after its end are never written. -/
theorem memcpyLoop_frame (n : Nat) :
    ∀ (mem : Nat → Nat) (d s a : Nat), (a < d ∨ d + n ≤ a) →
      memcpyLoop mem d s n a = mem a := by
  induction n with
  | zero => intro mem d s a _; rfl
  | succ k ih =>
    intro mem d s a h
    simp only [memcpyLoop]
    rw [ih _ _ _ _ (by omega)]
    have hne : a ≠ d := by omega
    simp [hne]

/-- Copy property of the loop: for non-overlapping regions, byte `i` of the
destination ends up holding byte `i` of the source as it was before the
call. -/
theorem memcpyLoop_copy (n : Nat) :
    ∀ (mem : Nat → Nat) (d s i : Nat), i < n → (d + n ≤ s ∨ s + n ≤ d) →
      memcpyLoop mem d s n (d + i) = mem (s + i) := by
  induction n with
  | zero => intro mem d s i hi _; exact absurd hi (by omega)
  | succ k ih =>
    intro mem d s i hi hno
    simp only [memcpyLoop]
    cases i with
    | zero =>
      rw [memcpyLoop_frame k _ _ _ _ (by omega)]
      simp
    | succ j =>
      have hj : j < k := by omega
      have hno' : (d + 1) + k ≤ (s + 1) ∨ (s + 1) + k ≤ (d + 1) := by omega
      have harg : d + (j + 1) = (d + 1) + j := by omega
      rw [harg, ih _ _ _ _ hj hno']
      have hne : (s + 1) + j ≠ d := by omega
      simp only [hne, if_false]
      congr 1
      omega

/-- C9: for non-overlapping buffers, `memcpy` returns its destination
argument, the first `n` destination bytes equal the source's original first
`n` bytes, every byte outside the destination range is unchanged, and for
`n = 0` the memory is untouched. -/
theorem c9_memcpy_contract :
    ∀ (mem : Nat → Nat) (dest src n : Nat),
      (dest + n ≤ src ∨ src + n ≤ dest) →
      (memcpy mem dest src n).2 = dest
      ∧ (∀ i, i < n → (memcpy mem dest src n).1 (dest + i) = mem (src + i))
      ∧ (∀ a, a < dest ∨ dest + n ≤ a → (memcpy mem dest src n).1 a = mem a)
      ∧ (n = 0 → (memcpy mem dest src n).1 = mem) := by
  intro mem dest src n hno
  refine ⟨rfl, ?_, ?_, ?_⟩
  · intro i hi
    exact memcpyLoop_copy n mem dest src i hi hno
  · intro a ha
    exact memcpyLoop_frame n mem dest src a ha
  · intro h
    subst h
    rfl

/-- Witness for C9: a three-byte copy between disjoint regions on a concrete
memory. -/
theorem c9_memcpy_contract_witness :
    (memcpy (fun a => a + 100) 10 0 3).2 = 10
    ∧ (memcpy (fun a => a + 100) 10 0 3).1 11 = 101
    ∧ (memcpy (fun a => a + 100) 10 0 3).1 5 = 105 :=
  have h := c9_memcpy_contract (fun a => a + 100) 10 0 3 (by omega)
  ⟨h.1, by simpa using h.2.1 1 (by omega), by simpa using h.2.2.1 5 (by omega)⟩
